import Mathlib

/-!
Verification of the Desaigner agentic-response core against its source.

The definitions below are shallow embeddings of the TypeScript functions in
`src/components/ProjectEditor.tsx`, `src/services/aiService.ts`,
`src/unnamed/part_006`, `src/unnamed/part_010` and `src/unnamed/part_011`:

* the file-operation reducer `applyOperation` and the batch loop `applyAll`;
* the blob parser `parseOperationsResponse` (delimited key/value text format);
* the streaming section parser of `streamAIAgentResponse`;
* the tool-calling agent loop `runAIAgentWorkflow`.

JavaScript strings are modelled as Lean `String` / `List Char`; JSON values
that the code destructures are modelled as structures of `Option` fields
(`none` models an absent property or a failed `JSON.parse`); functions that
`throw` are modelled with `Except`.
-/

namespace Desaigner

/-- A project file: `{ path: string, content: string }` (src/types.ts). -/
structure ProjectFile where
  path : String
  content : String
deriving DecidableEq, Repr

/-- A file operation as the reducer receives it at runtime.  The TypeScript
type narrows `operation` to the literals CREATE / UPDATE / DELETE, but the
value arrives from `JSON.parse` of model output, so at runtime it can be any
string; the reducer's `switch` has a `default` branch for exactly that
reason.  `content` and `reasoning` are optional properties. -/
structure FileOperation where
  operation : String
  path : String
  content : Option String := none
  reasoning : Option String := none
deriving DecidableEq, Repr

/-- Embeds the arrow function `f => f.path === path ? { ...f, content } : f`
used by both the CREATE and the UPDATE branch of `applyOperation`
(src/components/ProjectEditor.tsx lines 52-54 and 64-66). -/
def overwriteContent (path content : String) (f : ProjectFile) : ProjectFile :=
  if f.path == path then { f with content := content } else f

/-- The file-operation reducer (src/components/ProjectEditor.tsx lines
42-76, identical in src/unnamed/part_006 lines 36-57).  `content = ''` in
the destructuring is the `Option.getD ""` below.  CREATE on an existing
path overwrites; UPDATE on a missing path appends; DELETE filters; the
`default` branch only logs `console.warn` and returns the collection
unchanged. -/
def applyOperation (currentFiles : List ProjectFile) (op : FileOperation) :
    List ProjectFile :=
  let path := op.path
  let content := op.content.getD ""
  let fileExists := currentFiles.any (fun f => f.path == path)
  if op.operation == "CREATE" then
    if fileExists then
      currentFiles.map (overwriteContent path content)
    else
      currentFiles ++ [{ path := path, content := content }]
  else if op.operation == "UPDATE" then
    if !fileExists then
      currentFiles ++ [{ path := path, content := content }]
    else
      currentFiles.map (overwriteContent path content)
  else if op.operation == "DELETE" then
    currentFiles.filter (fun f => !(f.path == path))
  else
    currentFiles

/-- The batch application loop
`for (const op of result.operations) updatedFiles = applyOperation(updatedFiles, op)`
(src/unnamed/part_006 line 328; src/components/ProjectEditor.tsx lines
357-360 are the same loop). -/
def applyAll (files : List ProjectFile) : List FileOperation → List ProjectFile
  | [] => files
  | op :: rest => applyAll (applyOperation files op) rest

/-! Helper lemmas about the reducer. -/

theorem overwriteContent_path (p c : String) (f : ProjectFile) :
    (overwriteContent p c f).path = f.path := by
  unfold overwriteContent
  split <;> rfl

theorem overwriteContent_idem (p c : String) (f : ProjectFile) :
    overwriteContent p c (overwriteContent p c f) = overwriteContent p c f := by
  unfold overwriteContent
  by_cases h : f.path == p <;> simp [h]

theorem overwriteContent_of_ne (p c : String) (f : ProjectFile)
    (h : (f.path == p) = false) : overwriteContent p c f = f := by
  simp [overwriteContent, h]

theorem any_path_map_overwrite (p c q : String) (l : List ProjectFile) :
    (l.map (overwriteContent p c)).any (fun f => f.path == q)
      = l.any (fun f => f.path == q) := by
  induction l with
  | nil => rfl
  | cons hd tl ih => simp [List.any_cons, overwriteContent_path, ih]

theorem map_overwrite_of_absent (p c : String) (l : List ProjectFile)
    (h : l.any (fun f => f.path == p) = false) :
    l.map (overwriteContent p c) = l := by
  induction l with
  | nil => rfl
  | cons hd tl ih =>
    simp only [List.any_cons, Bool.or_eq_false_iff] at h
    simp [overwriteContent_of_ne p c hd h.1, ih h.2]

theorem map_overwrite_overwrite (p c : String) (l : List ProjectFile) :
    (l.map (overwriteContent p c)).map (overwriteContent p c)
      = l.map (overwriteContent p c) := by
  induction l with
  | nil => rfl
  | cons hd tl ih => simp [overwriteContent_idem, ih]

theorem paths_map_overwrite (p c : String) (l : List ProjectFile) :
    (l.map (overwriteContent p c)).map (fun f => f.path)
      = l.map (fun f => f.path) := by
  induction l with
  | nil => rfl
  | cons hd tl ih => simp [overwriteContent_path, ih]

theorem not_mem_paths_of_any_false (p : String) (l : List ProjectFile)
    (h : l.any (fun f => f.path == p) = false) :
    p ∉ l.map (fun f => f.path) := by
  induction l with
  | nil => simp
  | cons hd tl ih =>
    simp only [List.any_cons, Bool.or_eq_false_iff] at h
    simp only [List.map_cons, List.mem_cons]
    rintro (hh | hh)
    · subst hh
      simp at h
    · exact ih h.2 hh

/-- Branch shape of the reducer at an UPDATE operation; this is definitional
because the string comparisons in the `switch` reduce. -/
theorem applyOperation_update_eq (files : List ProjectFile) (p : String)
    (ct rs : Option String) :
    applyOperation files ⟨"UPDATE", p, ct, rs⟩
      = if !(files.any (fun f => f.path == p)) then
          files ++ [{ path := p, content := ct.getD "" }]
        else
          files.map (overwriteContent p (ct.getD "")) := rfl

/-- Branch shape of the reducer at a CREATE operation. -/
theorem applyOperation_create_eq (files : List ProjectFile) (p : String)
    (ct rs : Option String) :
    applyOperation files ⟨"CREATE", p, ct, rs⟩
      = if files.any (fun f => f.path == p) then
          files.map (overwriteContent p (ct.getD ""))
        else
          files ++ [{ path := p, content := ct.getD "" }] := rfl

/-- Branch shape of the reducer at a DELETE operation. -/
theorem applyOperation_delete_eq (files : List ProjectFile) (p : String)
    (ct rs : Option String) :
    applyOperation files ⟨"DELETE", p, ct, rs⟩
      = files.filter (fun f => !(f.path == p)) := rfl

/-- The UPDATE branch when the path is present: map the overwrite. -/
theorem applyOperation_update_exists (files : List ProjectFile) (p : String)
    (ct rs : Option String) (h : files.any (fun f => f.path == p) = true) :
    applyOperation files ⟨"UPDATE", p, ct, rs⟩
      = files.map (overwriteContent p (ct.getD "")) := by
  rw [applyOperation_update_eq, if_neg (by simp [h])]

/-- The UPDATE branch when the path is absent: append a new file. -/
theorem applyOperation_update_missing (files : List ProjectFile) (p : String)
    (ct rs : Option String) (h : files.any (fun f => f.path == p) = false) :
    applyOperation files ⟨"UPDATE", p, ct, rs⟩
      = files ++ [{ path := p, content := ct.getD "" }] := by
  rw [applyOperation_update_eq, if_pos (by simp [h])]

/-- Claim C9: applying the same Update operation twice is the same as
applying it once: for every file set F, path p, and content c,
`applyOperation (applyOperation F (Update p c)) (Update p c)
  = applyOperation F (Update p c)`. -/
theorem applyOperation_update_idempotent (files : List ProjectFile)
    (p c : String) :
    applyOperation (applyOperation files ⟨"UPDATE", p, some c, none⟩)
        ⟨"UPDATE", p, some c, none⟩
      = applyOperation files ⟨"UPDATE", p, some c, none⟩ := by
  cases hb : files.any (fun f => f.path == p) with
  | true =>
    rw [applyOperation_update_exists files p (some c) none hb,
      applyOperation_update_exists _ p (some c) none
        (by rw [any_path_map_overwrite]; exact hb)]
    exact map_overwrite_overwrite p ((some c).getD "") files
  | false =>
    rw [applyOperation_update_missing files p (some c) none hb]
    have hany : ((files ++
          [({ path := p, content := (some c).getD "" } : ProjectFile)]).any
        (fun f => f.path == p)) = true := by
      simp [List.any_append]
    rw [applyOperation_update_exists _ p (some c) none hany,
      List.map_append, map_overwrite_of_absent p ((some c).getD "") files hb]
    simp [overwriteContent]

/-- Claim C8: CREATE on an existing path behaves as UPDATE: it maps the
overwrite function over the collection (so it rewrites the entry at `p` to
content `c`, keeps every path unchanged and adds no duplicate), and agrees
with the UPDATE operation on the same path and content. -/
theorem applyOperation_create_existing_overwrites (files : List ProjectFile)
    (p c : String) (h : files.any (fun f => f.path == p) = true) :
    applyOperation files ⟨"CREATE", p, some c, none⟩
        = files.map (overwriteContent p c)
      ∧ applyOperation files ⟨"CREATE", p, some c, none⟩
        = applyOperation files ⟨"UPDATE", p, some c, none⟩
      ∧ ∀ f ∈ applyOperation files ⟨"CREATE", p, some c, none⟩,
          f.path = p → f.content = c := by
  have hc : applyOperation files ⟨"CREATE", p, some c, none⟩
      = files.map (overwriteContent p c) := by
    rw [applyOperation_create_eq, if_pos h]
    rfl
  refine ⟨hc, ?_, ?_⟩
  · rw [hc, applyOperation_update_eq, if_neg (by simp [h])]
    rfl
  · intro f hf hfp
    rw [hc] at hf
    obtain ⟨g, _, rfl⟩ := List.mem_map.mp hf
    by_cases hg : (g.path == p) = true
    · simp [overwriteContent, hg]
    · have hg2 : (g.path == p) = false := by simpa using hg
      rw [overwriteContent_of_ne p c g hg2] at hfp
      rw [hfp] at hg2
      simp at hg2

/-- Witness for C8 at the concrete instance from the spec:
`applyOperation [{p, "a"}] (Create p "b") = [{p, "b"}]`. -/
theorem applyOperation_create_existing_overwrites_witness :
    ([(⟨"p", "a"⟩ : ProjectFile)].any (fun f => f.path == "p") = true)
      ∧ (applyOperation [⟨"p", "a"⟩] ⟨"CREATE", "p", some "b", none⟩
          = [(⟨"p", "a"⟩ : ProjectFile)].map (overwriteContent "p" "b")
        ∧ applyOperation [⟨"p", "a"⟩] ⟨"CREATE", "p", some "b", none⟩
          = applyOperation [⟨"p", "a"⟩] ⟨"UPDATE", "p", some "b", none⟩
        ∧ ∀ f ∈ applyOperation [⟨"p", "a"⟩] ⟨"CREATE", "p", some "b", none⟩,
            f.path = "p" → f.content = "b")
      ∧ applyOperation [⟨"p", "a"⟩] ⟨"CREATE", "p", some "b", none⟩
          = [⟨"p", "b"⟩] :=
  ⟨by decide,
   applyOperation_create_existing_overwrites [⟨"p", "a"⟩] "p" "b" (by decide),
   by decide⟩

/-- Claim C7: the batch loop equals the left fold of `applyOperation` in
array order, so a later operation on the same path supersedes an earlier
one; in particular `applyAll [] [Create p "a", Update p "b"] = [{p, "b"}]`
and `applyAll [] [Create p "a", Delete p] = []`. -/
theorem applyAll_foldl_and_batch_order :
    (∀ (files : List ProjectFile) (ops : List FileOperation),
        applyAll files ops = ops.foldl applyOperation files)
      ∧ (∀ p : String,
          applyAll [] [⟨"CREATE", p, some "a", none⟩,
              ⟨"UPDATE", p, some "b", none⟩]
            = [⟨p, "b"⟩])
      ∧ (∀ p : String,
          applyAll [] [⟨"CREATE", p, some "a", none⟩,
              ⟨"DELETE", p, none, none⟩]
            = []) := by
  refine ⟨?_, ?_, ?_⟩
  · intro files ops
    induction ops generalizing files with
    | nil => rfl
    | cons op rest ih => simp [applyAll, List.foldl_cons, ih]
  · intro p
    simp [applyAll, applyOperation, overwriteContent]
  · intro p
    simp [applyAll, applyOperation]

/-- Counterexample for claim C1: on an operation whose kind is none of
CREATE, UPDATE or DELETE the reducer does NOT fail — its `default` branch
only logs a warning and hands the collection back unchanged.  Here the
unknown kind "FOO" on a collection holding `a.txt` leaves the collection
exactly as it was. -/
theorem applyOperation_unknown_kind_not_error_cex :
    applyOperation [⟨"a.txt", "x"⟩] ⟨"FOO", "a.txt", some "y", none⟩
      = [⟨"a.txt", "x"⟩] := by decide

/-- Claim C1 as amended: for every file collection and every FileOperation
whose kind is not one of CREATE, UPDATE or DELETE, the reducer
`applyOperation` logs a warning and returns the collection unchanged (the
permissive variant); it has no failure outcome at all. -/
theorem applyOperation_unknown_kind_skips (files : List ProjectFile)
    (op : FileOperation) (h1 : op.operation ≠ "CREATE")
    (h2 : op.operation ≠ "UPDATE") (h3 : op.operation ≠ "DELETE") :
    applyOperation files op = files := by
  unfold applyOperation
  simp [h1, h2, h3]

/-- Witness for the amended claim C1 at the concrete unknown kind "FOO". -/
theorem applyOperation_unknown_kind_skips_witness :
    (("FOO" : String) ≠ "CREATE" ∧ ("FOO" : String) ≠ "UPDATE"
        ∧ ("FOO" : String) ≠ "DELETE")
      ∧ applyOperation [⟨"index.html", "<p>"⟩] ⟨"FOO", "index.html", none, none⟩
        = [⟨"index.html", "<p>"⟩] :=
  ⟨⟨by decide, by decide, by decide⟩,
   applyOperation_unknown_kind_skips [⟨"index.html", "<p>"⟩]
     ⟨"FOO", "index.html", none, none⟩ (by decide) (by decide) (by decide)⟩

/-- Claim C6: for every file collection whose entries have pairwise-distinct
paths and every CREATE, UPDATE, or DELETE operation, the collection returned
by `applyOperation` again has pairwise-distinct paths. -/
theorem applyOperation_preserves_nodup_paths (files : List ProjectFile)
    (op : FileOperation) (h1 : (files.map (fun f => f.path)).Nodup)
    (h2 : op.operation = "CREATE" ∨ op.operation = "UPDATE"
      ∨ op.operation = "DELETE") :
    ((applyOperation files op).map (fun f => f.path)).Nodup := by
  obtain ⟨o, p, ct, rs⟩ := op
  simp only at h2
  cases hb : files.any (fun f => f.path == p) with
  | true =>
    rcases h2 with h | h | h <;> subst h
    · rw [show applyOperation files ⟨"CREATE", p, ct, rs⟩
          = files.map (overwriteContent p (ct.getD "")) from
            by rw [applyOperation_create_eq, if_pos hb]]
      rw [paths_map_overwrite]
      exact h1
    · rw [applyOperation_update_exists files p ct rs hb, paths_map_overwrite]
      exact h1
    · rw [applyOperation_delete_eq]
      exact List.Nodup.sublist (List.Sublist.map _ (List.filter_sublist _)) h1
  | false =>
    have hnm := not_mem_paths_of_any_false p files hb
    rcases h2 with h | h | h <;> subst h
    · rw [show applyOperation files ⟨"CREATE", p, ct, rs⟩
          = files ++ [{ path := p, content := ct.getD "" }] from
            by rw [applyOperation_create_eq, hb, if_neg (by decide)]]
      simp [List.nodup_append, h1, hnm]
    · rw [applyOperation_update_missing files p ct rs hb]
      simp [List.nodup_append, h1, hnm]
    · rw [applyOperation_delete_eq]
      exact List.Nodup.sublist (List.Sublist.map _ (List.filter_sublist _)) h1

/-- Witness for claim C6 at a concrete two-file collection. -/
theorem applyOperation_preserves_nodup_paths_witness :
    (([(⟨"a.txt", "1"⟩ : ProjectFile), ⟨"b.txt", "2"⟩].map
        (fun f => f.path)).Nodup
      ∧ (("CREATE" : String) = "CREATE" ∨ ("CREATE" : String) = "UPDATE"
        ∨ ("CREATE" : String) = "DELETE"))
      ∧ ((applyOperation [⟨"a.txt", "1"⟩, ⟨"b.txt", "2"⟩]
          ⟨"CREATE", "c.txt", some "3", none⟩).map (fun f => f.path)).Nodup :=
  ⟨⟨by decide, Or.inl rfl⟩,
   applyOperation_preserves_nodup_paths [⟨"a.txt", "1"⟩, ⟨"b.txt", "2"⟩]
     ⟨"CREATE", "c.txt", some "3", none⟩ (by decide) (Or.inl rfl)⟩

/-!
The blob parser `parseOperationsResponse` (src/services/aiService.ts lines
206-298; the variant in src/unnamed/part_010 lines 62-177 shares the same
fence stripping, empty-response and conversational-refusal front end).
JavaScript strings are modelled as `List Char`.
-/

/-- Whitespace as used by `trim` / line tests (space, tab, CR, LF). -/
def isWsChar (c : Char) : Bool :=
  c == ' ' || c == '\t' || c == '\r' || c == '\n'

/-- Models `response.replace(/```(txt|text|json)?/g, '')`: every occurrence
of three backticks, optionally followed immediately by `txt`, `text` or
`json` (tried in the alternation order of the regex), is deleted; scanning
resumes after the deleted match. -/
def fenceFreeChars : List Char → List Char
  | '`' :: '`' :: '`' :: 't' :: 'x' :: 't' :: r => fenceFreeChars r
  | '`' :: '`' :: '`' :: 't' :: 'e' :: 'x' :: 't' :: r => fenceFreeChars r
  | '`' :: '`' :: '`' :: 'j' :: 's' :: 'o' :: 'n' :: r => fenceFreeChars r
  | '`' :: '`' :: '`' :: rest => fenceFreeChars rest
  | c :: rest => c :: fenceFreeChars rest
  | [] => []

/-- Models `String.prototype.trimStart`. -/
def trimLeftChars (l : List Char) : List Char := l.dropWhile isWsChar

/-- Models `String.prototype.trim`. -/
def trimChars (l : List Char) : List Char :=
  ((l.dropWhile isWsChar).reverse.dropWhile isWsChar).reverse

/-- Does `needle` occur at the start of `haystack`? -/
def beginsWith : List Char → List Char → Bool
  | [], _ => true
  | _ :: _, [] => false
  | a :: as, b :: bs => a == b && beginsWith as bs

/-- Does `needle` occur anywhere in `haystack`?  Models
`String.prototype.indexOf(needle) !== -1` / an unanchored regex test. -/
def containsSeq (needle : List Char) : List Char → Bool
  | [] => beginsWith needle []
  | c :: rest => beginsWith needle (c :: rest) || containsSeq needle rest

/-- Models the heuristic `/operation:|path:|reasoning:/i.test(txtResponse)`
(src/services/aiService.ts line 222); the `i` flag is modelled by lowering
the text first. -/
def isStructuredResponse (l : List Char) : Bool :=
  let low := l.map Char.toLower
  containsSeq "operation:".data low || containsSeq "path:".data low
    || containsSeq "reasoning:".data low

/-- Models `String.prototype.split('\n')`. -/
def splitLines : List Char → List (List Char)
  | [] => [[]]
  | '\n' :: rest => [] :: splitLines rest
  | c :: rest =>
    match splitLines rest with
    | [] => [[c]]
    | l :: ls => (c :: l) :: ls

/-- A separator line of the block format: models the split regex
`/^\s*--\s*$/m` (a line that is `--` surrounded only by whitespace).  The
regex can also absorb adjacent blank lines into the separator; that only
moves whitespace between neighbouring blocks, which the block handler trims
away, so splitting on whole lines yields the same operations. -/
def sepLine (line : List Char) : Bool := trimChars line == ['-', '-']

/-- Split a line list at separator lines (split semantics: empty pieces are
kept, the block handler skips them after trimming). -/
def splitBlocks : List (List Char) → List (List (List Char))
  | [] => [[]]
  | line :: rest =>
    if sepLine line then [] :: splitBlocks rest
    else
      match splitBlocks rest with
      | [] => [[line]]
      | b :: bs => (line :: b) :: bs

/-- Rejoin lines with the newline that `split('\n')` removed. -/
def joinLines : List (List Char) → List Char
  | [] => []
  | [l] => l
  | l :: l2 :: ls => l ++ '\n' :: joinLines (l2 :: ls)

/-- Error kinds of the parser.  `conversational` embeds the distinguished
`AIConversationalError` (it carries the cleaned response text); `malformed`
embeds every generic `Error` thrown during block parsing (invalid operation
kind, incomplete operation). -/
inductive ParseError where
  | conversational (text : String)
  | malformed
deriving DecidableEq, Repr

/-- Is `c` an ASCII letter?  Models the `[a-zA-Z]` character class. -/
def isAsciiLetterChar (c : Char) : Bool :=
  ('a' ≤ c && c ≤ 'z') || ('A' ≤ c && c ≤ 'Z')

/-- Models the key line regex `/^([a-zA-Z]+):\s?(.*)$/` of the block parser
(src/services/aiService.ts line 247): one or more letters, a colon, at most
one whitespace character, then the value.  Returns the lowered key and the
value, or `none` when the line does not match. -/
def matchKeyLine (line : List Char) : Option (String × String) :=
  let letters := line.takeWhile isAsciiLetterChar
  if letters.isEmpty then none
  else
    match line.drop letters.length with
    | ':' :: rest =>
      let value :=
        match rest with
        | c :: tail => if isWsChar c then tail else c :: tail
        | [] => []
      some ((letters.map Char.toLower).asString, value.asString)
    | _ => none

/-- The mutable `op` object built up while scanning a block
(src/services/aiService.ts lines 236-274). -/
structure PartialOp where
  operation : Option String := none
  path : Option String := none
  reasoning : Option String := none
  contentLines : List String := []
deriving DecidableEq, Repr

/-- One pass over the lines of a block: key lines fill the partial
operation, a `content:` line switches to content mode, everything after
that is content verbatim; an invalid operation kind throws. -/
def parseBlockLines : List (List Char) → PartialOp → Bool →
    Except ParseError PartialOp
  | [], op, _ => .ok op
  | line :: rest, op, true =>
    parseBlockLines rest
      { op with contentLines := op.contentLines ++ [line.asString] } true
  | line :: rest, op, false =>
    match matchKeyLine line with
    | none => parseBlockLines rest op false
    | some (key, value) =>
      if key = "operation" then
        if value = "CREATE" ∨ value = "UPDATE" ∨ value = "DELETE" then
          parseBlockLines rest { op with operation := some value } false
        else
          .error .malformed
      else if key = "path" then
        parseBlockLines rest { op with path := some value } false
      else if key = "reasoning" then
        parseBlockLines rest { op with reasoning := some value } false
      else if key = "content" then
        parseBlockLines rest op true
      else
        parseBlockLines rest op false

/-- Final validation of a block (src/services/aiService.ts lines 276-285):
CREATE and UPDATE join the collected content lines; a missing `operation`,
or a missing or empty (falsy) `path` or `reasoning`, throws. -/
def finalizeOp (op : PartialOp) : Except ParseError FileOperation :=
  match op.operation, op.path, op.reasoning with
  | some o, some p, some r =>
    if p = "" ∨ r = "" then .error .malformed
    else
      .ok { operation := o, path := p,
            content :=
              if o = "CREATE" ∨ o = "UPDATE" then
                some (String.intercalate "\n" op.contentLines)
              else none,
            reasoning := some r }
  | _, _, _ => .error .malformed

/-- Parse one (already trimmed, non-empty) block. -/
def parseBlock (lines : List (List Char)) : Except ParseError FileOperation :=
  match parseBlockLines lines {} false with
  | .error e => .error e
  | .ok op => finalizeOp op

/-- The `operationBlocks.forEach` loop: blocks that trim to nothing are
skipped, the first throwing block aborts the whole parse. -/
def parseBlocks : List (List (List Char)) → Except ParseError (List FileOperation)
  | [] => .ok []
  | b :: bs =>
    let tb := trimChars (joinLines b)
    if tb.isEmpty then parseBlocks bs
    else
      match parseBlock (splitLines tb) with
      | .error e => .error e
      | .ok op =>
        match parseBlocks bs with
        | .error e => .error e
        | .ok ops => .ok (op :: ops)

/-- The blob parser `parseOperationsResponse`
(src/services/aiService.ts lines 206-298): strip markdown fences and trim;
an empty result yields zero operations; a result without any structural
marker is a conversational refusal carrying the cleaned text; otherwise the
text is split into `--`-separated blocks and each block is validated. -/
def parseOperationsResponse (response : String) :
    Except ParseError (List FileOperation) :=
  let txtResponse := trimChars (fenceFreeChars response.data)
  if txtResponse.isEmpty then .ok []
  else if !(isStructuredResponse txtResponse) then
    .error (.conversational txtResponse.asString)
  else
    parseBlocks (splitBlocks (splitLines txtResponse))

/-- The apostrophe character, written via its code point. -/
def apostrophe : String := String.singleton (Char.ofNat 39)

/-- The conversational refusal input from the spec:
`Sorry, I can<apostrophe>t help with that.` -/
def refusalText : String := "Sorry, I can" ++ apostrophe ++ "t help with that."

/-- Claim C10: a model response that is empty after fence stripping and
trimming parses to zero operations (no error, no file mutations). -/
theorem parse_empty_response_no_ops (r : String)
    (h : trimChars (fenceFreeChars r.data) = []) :
    parseOperationsResponse r = .ok [] := by
  unfold parseOperationsResponse
  simp [h]

/-- Witness for claim C10: a bare fenced code block with no payload. -/
theorem parse_empty_response_no_ops_witness :
    trimChars (fenceFreeChars ("```json\n```" : String).data) = []
      ∧ parseOperationsResponse "```json\n```" = .ok [] :=
  ⟨by decide, parse_empty_response_no_ops "```json\n```" (by decide)⟩

/-- Counterexample for claim C4: the conversational error does not carry the
raw response text, it carries the fence-stripped and trimmed text.  On the
refusal sentence followed by a stray closing fence, the parser fails with a
`conversational` error whose payload lacks the fence, hence differs from
the raw input. -/
theorem parse_conversational_text_cex :
    parseOperationsResponse (refusalText ++ "\n```")
        = .error (.conversational refusalText)
      ∧ refusalText ≠ refusalText ++ "\n```" :=
  ⟨by rfl, by decide⟩

/-- Claim C4 as amended: for every raw model response that is non-empty
after markdown-fence stripping and trimming and contains no structural
marker, the blob parser fails with the distinguished conversational error
carrying the fence-stripped trimmed text (which equals the raw text
whenever the response has no fences or padding, as for the refusal
sentence). -/
theorem parse_conversational_refusal (r : String)
    (h1 : trimChars (fenceFreeChars r.data) ≠ [])
    (h2 : isStructuredResponse (trimChars (fenceFreeChars r.data)) = false) :
    parseOperationsResponse r
      = .error (.conversational (trimChars (fenceFreeChars r.data)).asString) := by
  have he : (trimChars (fenceFreeChars r.data)).isEmpty = false := by
    simpa [List.isEmpty_iff] using h1
  unfold parseOperationsResponse
  simp [he, h2]

/-- Witness for the amended claim C4: on the exact refusal sentence of the
spec the parser fails conversationally and the carried text is the raw
input itself. -/
theorem parse_conversational_refusal_witness :
    (trimChars (fenceFreeChars refusalText.data) ≠ []
        ∧ isStructuredResponse (trimChars (fenceFreeChars refusalText.data))
          = false)
      ∧ parseOperationsResponse refusalText
        = .error (.conversational
            (trimChars (fenceFreeChars refusalText.data)).asString)
      ∧ (trimChars (fenceFreeChars refusalText.data)).asString = refusalText :=
  ⟨⟨by decide, by decide⟩,
   parse_conversational_refusal refusalText (by decide) (by decide),
   by decide⟩

/-!
The streaming section parser of `streamAIAgentResponse`
(src/services/aiService.ts lines 80-131).  The async generator maintains an
accumulation buffer and a current-section state; on every received fragment
it repeatedly (1) matches a section header `/^--\s*([\s\S]+?)\s*--\n/` when
no section is open and (2) finds the terminator `'-#'` via `indexOf` for
the open section, emitting the parsed unit immediately.
-/

/-- A parsed unit yielded by the streaming parser (the `StreamChunk` type of
src/services/aiService.ts without the transport-error shape). -/
inductive StreamChunk where
  | thought (content : String)
  | explanation (content : String)
  | fileChunk (path : String) (content : String)
deriving DecidableEq, Repr

/-- The `currentSection` / `currentFilePath` pair of the generator. -/
inductive SectionState where
  | rencana
  | penjelasan
  | fileSection (path : String)
deriving DecidableEq, Repr

/-- The carried parser state: accumulation buffer plus open section. -/
structure ParserState where
  buffer : List Char
  currentSection : Option SectionState
deriving DecidableEq, Repr

/-- `let buffer = ''` and `let currentSection = null`. -/
def initialParserState : ParserState := { buffer := [], currentSection := none }

/-- Split at the first occurrence of `needle`, returning the text before it
and the text after it; `none` when `needle` does not occur.  Models
`String.prototype.indexOf` plus the two `substring` calls around it. -/
def splitAtSeq (needle : List Char) : List Char →
    Option (List Char × List Char)
  | [] => if beginsWith needle [] then some ([], []) else none
  | c :: rest =>
    if beginsWith needle (c :: rest) then
      some ([], (c :: rest).drop needle.length)
    else
      match splitAtSeq needle rest with
      | none => none
      | some (before, after) => some (c :: before, after)

/-- Models the header regex `/^--\s*([\s\S]+?)\s*--\n/`: the buffer must
start with `--`, and the match ends at the first occurrence of `--\n` that
leaves at least one character in between (the lazy group needs one
character; the surrounding `\s*` only move whitespace into or out of the
group, which the `.trim()` on the captured name erases, so the trimmed name
and the consumed length agree with the regex).  Returns the trimmed section
name and the buffer after the match. -/
def headerMatch : List Char → Option (String × List Char)
  | '-' :: '-' :: c :: rest =>
    match splitAtSeq ['-', '-', '\n'] rest with
    | none => none
    | some (before, after) => some ((trimChars (c :: before)).asString, after)
  | _ => none

/-- `'rencana' | 'penjelasan'` select the fixed sections, any other header
name opens a file section with that name as path. -/
def sectionOf (name : String) : SectionState :=
  if name = "rencana" then .rencana
  else if name = "penjelasan" then .penjelasan
  else .fileSection name

/-- The `rencana` body is split into lines; blank lines are dropped and each
remaining line is yielded trimmed as one thought. -/
def thoughtChunks (content : List Char) : List StreamChunk :=
  (splitLines content).filterMap (fun t =>
    if (trimChars t).isEmpty then none
    else some (.thought (trimChars t).asString))

/-- Chunks emitted when a section terminator is found. -/
def emitChunks (sec : SectionState) (content : List Char) : List StreamChunk :=
  match sec with
  | .rencana => thoughtChunks content
  | .penjelasan => [.explanation (trimChars content).asString]
  | .fileSection path => [.fileChunk path (trimChars content).asString]

/-- The `while (changedInLoop)` drain loop of the generator, fuelled: each
productive iteration consumes at least two buffer characters, so a fuel of
`buffer.length + 1` exceeds the number of iterations the JS loop can make. -/
def drain : Nat → ParserState → ParserState × List StreamChunk
  | 0, st => (st, [])
  | fuel + 1, st =>
    match st.currentSection with
    | none =>
      match headerMatch st.buffer with
      | some (name, rest) =>
        drain fuel { buffer := rest, currentSection := some (sectionOf name) }
      | none => (st, [])
    | some sec =>
      match splitAtSeq ['-', '#'] st.buffer with
      | some (before, after) =>
        let events := emitChunks sec before
        let next := drain fuel
          { buffer := trimLeftChars after, currentSection := none }
        (next.1, events ++ next.2)
      | none => (st, [])

/-- One `for await` step of the generator: append the fragment text to the
buffer (a falsy, i.e. empty, fragment is skipped) and drain. -/
def feedFragment (st : ParserState) (fragment : String) :
    ParserState × List StreamChunk :=
  if fragment = "" then (st, [])
  else
    let buf := st.buffer ++ fragment.data
    drain (buf.length + 1) { st with buffer := buf }

/-- Counterexample for claim C2: feeding the two spec fragments does not
yield an explanation event with content exactly "Hello world" — the
generator searches for the terminator `'-#'` (its wire format ends sections
with `-#`), so inside `"Hello world\n--#"` the terminator is found one
character late and the leftover first dash and the newline stay in the
emitted content. -/
theorem stream_explanation_content_cex :
    (feedFragment (feedFragment initialParserState "-- penjelasan --\nHello").1
        " world\n--#").2
      ≠ [StreamChunk.explanation "Hello world"] := by decide

/-- Claim C2 as amended: feeding the fragments
`"-- penjelasan --\nHello"` and `" world\n--#"` sequentially yields no event
on the first fragment and exactly one explanation event after the second
fragment has been consumed, with content `"Hello world\n-"` (the parser
terminator is `-#`, so the first dash of `--#` and the newline before it
remain in the content). -/
theorem stream_explanation_reconstruction_amended :
    (feedFragment initialParserState "-- penjelasan --\nHello").2 = []
      ∧ (feedFragment
            (feedFragment initialParserState "-- penjelasan --\nHello").1
            " world\n--#").2
        = [StreamChunk.explanation "Hello world\n-"] := by
  exact ⟨by decide, by decide⟩

/-!
The tool-calling agent loop `runAIAgentWorkflow`
(src/services/aiService.ts lines 438-634; the variant in
src/unnamed/part_011 lines 97-291 differs only in transport plumbing and,
at lines 477-481 of that file, a ceiling of 10 instead of 20).  The LLM
transport `callAIAgent` is abstracted as a scripted function from the turn
number to the shape of reply the loop destructures; the duck-typed JSON
tool arguments are modelled as a structure of optional fields, where a
whole-argument `none` models a throwing `JSON.parse(call.arguments)`.
-/

/-- The parsed `args` object of a tool call.  `none` models an absent
property (and JavaScript treats an empty `explanation` string as falsy,
which the loop checks separately). -/
structure ToolArgs where
  explanation : Option String := none
  operations : Option (List FileOperation) := none
  thought : Option String := none
  paths : Option (List String) := none
deriving DecidableEq, Repr

/-- One entry of the `functionCalls` array: the tool name and the result of
`JSON.parse(call.arguments)` (`none` when parsing throws). -/
structure ToolCall where
  name : String
  args : Option ToolArgs
deriving DecidableEq, Repr

/-- The three reply shapes `callAIAgent` can hand the loop: a tool-call
array, plain conversational content, or a reply with no valid
`functionCalls` array. -/
inductive AgentResponse where
  | toolCalls (calls : List ToolCall)
  | conversational (text : String)
  | invalid
deriving DecidableEq, Repr

/-- The outcome of the loop: its returned `WorkflowResult` or one of the
thrown errors (`AIConversationalError`, the invalid-format error, the
malformed-terminal-arguments error, and the turn-ceiling error the spec
calls AgentExhausted). -/
inductive AgentOutcome where
  | success (explanation : String) (operations : List FileOperation)
  | conversationalError (text : String)
  | invalidResponse
  | malformedArgs
  | exhausted
deriving DecidableEq, Repr

/-- The `onThought` calls produced by executing one non-terminal tool call
(src/services/aiService.ts lines 586-628): a parse failure or an unknown
tool yields none; `think` reports its non-empty thought; `read_file` with a
non-empty path array reports the read and one extra line per missing
path. -/
def missingPathThoughts (files : List ProjectFile) : List String → List String
  | [] => []
  | p :: ps =>
    if files.any (fun f => f.path == p) then missingPathThoughts files ps
    else ("Mencoba membaca file yang tidak ada: `" ++ p ++ "`")
      :: missingPathThoughts files ps

/-- Thoughts of a single executed tool call. -/
def thoughtsOfCall (files : List ProjectFile) (c : ToolCall) : List String :=
  match c.args with
  | none => []
  | some args =>
    if c.name == "think" then
      match args.thought with
      | some t => if t = "" then [] else [t]
      | none => []
    else if c.name == "read_file" then
      match args.paths with
      | some ps =>
        if ps.isEmpty then []
        else ("Membaca file: `" ++ String.intercalate "`, `" ps ++ "`")
          :: missingPathThoughts files ps
      | none => []
    else []

/-- Thoughts of one whole turn, in call order. -/
def turnThoughts (files : List ProjectFile) : List ToolCall → List String
  | [] => []
  | c :: rest => thoughtsOfCall files c ++ turnThoughts files rest

/-- The `while (true)` loop of `runAIAgentWorkflow`.  The JavaScript loop
increments `loopCount` and throws once `loopCount > 20`, so it consults the
transport exactly on turns 1..20; here `fuel` counts the turns that remain
before that throw.  Within a turn: conversational content throws, a missing
call array throws, a present `apply_project_changes` call is validated and
returned immediately (before any tool of the turn is executed), and
otherwise the non-terminal tools run and the loop continues. -/
def agentLoopAux (transport : Nat → AgentResponse) (files : List ProjectFile) :
    Nat → Nat → List String → AgentOutcome × List String
  | 0, _, trace => (.exhausted, trace)
  | fuel + 1, turn, trace =>
    match transport turn with
    | .conversational text => (.conversationalError text, trace)
    | .invalid => (.invalidResponse, trace)
    | .toolCalls calls =>
      match calls.find? (fun c => c.name == "apply_project_changes") with
      | some c =>
        match c.args with
        | some args =>
          match args.explanation, args.operations with
          | some e, some ops =>
            if e = "" then (.malformedArgs, trace)
            else (.success e ops, trace)
          | _, _ => (.malformedArgs, trace)
        | none => (.malformedArgs, trace)
      | none =>
        agentLoopAux transport files fuel (turn + 1)
          (trace ++ turnThoughts files calls)

/-- Entry point: turn ceiling 20, first turn numbered 1, empty trace. -/
def runAIAgentWorkflow (transport : Nat → AgentResponse)
    (files : List ProjectFile) : AgentOutcome × List String :=
  agentLoopAux transport files 20 1 []

/-- A reply that is a tool-call array none of whose calls is the terminal
`apply_project_changes`. -/
def nonTerminalToolReply : AgentResponse → Prop
  | .toolCalls calls => ∀ c ∈ calls, c.name ≠ "apply_project_changes"
  | .conversational _ => False
  | .invalid => False

theorem find_terminal_eq_none (calls : List ToolCall)
    (h : ∀ c ∈ calls, c.name ≠ "apply_project_changes") :
    calls.find? (fun c => c.name == "apply_project_changes") = none := by
  induction calls with
  | nil => rfl
  | cons hd tl ih =>
    have hhd : (hd.name == "apply_project_changes") = false := by
      simpa using h hd (by simp)
    simp only [List.find?_cons, hhd]
    exact ih (fun c hc => h c (by simp [hc]))

/-- Claim C3: for every scripted transport whose replies never contain the
terminal `apply_project_changes` tool call (for example, one that always
returns a think call), `runAIAgentWorkflow` terminates by failing with
AgentExhausted once its hard turn ceiling is reached; it never loops
forever (the loop is a total function of its fuel). -/
theorem agent_loop_exhausts_at_ceiling (transport : Nat → AgentResponse)
    (files : List ProjectFile)
    (h : ∀ n, nonTerminalToolReply (transport n)) :
    (runAIAgentWorkflow transport files).1 = .exhausted := by
  suffices hgen : ∀ fuel turn trace,
      (agentLoopAux transport files fuel turn trace).1 = .exhausted from
    hgen 20 1 []
  intro fuel
  induction fuel with
  | zero => intro turn trace; rfl
  | succ n ih =>
    intro turn trace
    have ht := h turn
    unfold agentLoopAux
    cases hr : transport turn with
    | conversational text => rw [hr] at ht; exact absurd ht (by simp [nonTerminalToolReply])
    | invalid => rw [hr] at ht; exact absurd ht (by simp [nonTerminalToolReply])
    | toolCalls calls =>
      rw [hr] at ht
      dsimp only
      rw [find_terminal_eq_none calls ht]
      exact ih (turn + 1) (trace ++ turnThoughts files calls)

/-- A scripted transport that answers every turn with a single think call. -/
def alwaysThinkTransport : Nat → AgentResponse :=
  fun _ => .toolCalls
    [{ name := "think", args := some { thought := some "rencana" } }]

/-- Witness for claim C3: a transport that always answers with a single
think call is exhausted. -/
theorem agent_loop_exhausts_at_ceiling_witness :
    (∀ n : Nat, nonTerminalToolReply (alwaysThinkTransport n))
      ∧ (runAIAgentWorkflow alwaysThinkTransport []).1 = .exhausted :=
  ⟨fun _ => by simp [alwaysThinkTransport, nonTerminalToolReply],
   agent_loop_exhausts_at_ceiling alwaysThinkTransport []
     (fun _ => by simp [alwaysThinkTransport, nonTerminalToolReply])⟩

/-- Claim C5 as amended: in every agent-loop turn whose tool-call list
yields an `apply_project_changes` call as the FIRST such call (the loop
validates only `functionCalls.find(...)`) and whose arguments are
well-formed (a non-empty explanation and an operations array), the loop
returns immediately with that call's explanation and operations, and no
other tool requested in the same turn is executed or answered (the thought
trace is returned unchanged). -/
theorem agent_loop_terminal_returns_immediately
    (transport : Nat → AgentResponse) (files : List ProjectFile)
    (fuel turn : Nat) (trace : List String) (calls : List ToolCall)
    (c : ToolCall) (args : ToolArgs) (e : String) (ops : List FileOperation)
    (h1 : transport turn = .toolCalls calls)
    (h2 : calls.find? (fun c => c.name == "apply_project_changes") = some c)
    (h3 : c.args = some args)
    (h4 : args.explanation = some e) (h5 : e ≠ "")
    (h6 : args.operations = some ops) :
    agentLoopAux transport files (fuel + 1) turn trace
      = (.success e ops, trace) := by
  unfold agentLoopAux
  simp [h1, h2, h3, h4, h6, h5]

/-- A terminal call with well-formed arguments. -/
def goodApplyCall : ToolCall :=
  { name := "apply_project_changes",
    args := some { explanation := some "ok", operations := some [] } }

/-- A terminal call whose `JSON.parse(call.arguments)` throws. -/
def badApplyCall : ToolCall :=
  { name := "apply_project_changes", args := none }

/-- A scripted transport whose first turn requests a malformed terminal
call followed by a well-formed one. -/
def twoTerminalTransport : Nat → AgentResponse :=
  fun _ => .toolCalls [badApplyCall, goodApplyCall]

/-- Counterexample for claim C5: this turn's tool-call list contains an
`apply_project_changes` call with well-formed arguments (`goodApplyCall`,
explanation "ok", empty operations array), yet the loop does not return
that call's arguments as the WorkflowResult — it validates only the first
terminal call in the list, whose arguments fail to parse, and throws the
malformed-arguments error instead. -/
theorem agent_loop_terminal_second_call_cex :
    (twoTerminalTransport 1 = .toolCalls [badApplyCall, goodApplyCall]
        ∧ goodApplyCall.name = "apply_project_changes"
        ∧ goodApplyCall.args
          = some { explanation := some "ok", operations := some [] })
      ∧ (runAIAgentWorkflow twoTerminalTransport []).1 = .malformedArgs
      ∧ AgentOutcome.malformedArgs ≠ .success "ok" [] :=
  ⟨⟨rfl, rfl, rfl⟩, rfl, by decide⟩

/-- A scripted transport whose first turn requests exactly the well-formed
terminal call. -/
def oneTerminalTransport : Nat → AgentResponse :=
  fun _ => .toolCalls [goodApplyCall]

/-- Witness for the amended claim C5: a turn consisting of one well-formed
terminal call returns its explanation and operations at once, with the
thought trace untouched. -/
theorem agent_loop_terminal_returns_immediately_witness :
    (oneTerminalTransport 1 = .toolCalls [goodApplyCall]
        ∧ [goodApplyCall].find? (fun c => c.name == "apply_project_changes")
          = some goodApplyCall
        ∧ goodApplyCall.args
          = some { explanation := some "ok", operations := some [] }
        ∧ ("ok" : String) ≠ "")
      ∧ agentLoopAux oneTerminalTransport [] 20 1 []
        = (.success "ok" [], []) :=
  ⟨⟨rfl, rfl, rfl, by decide⟩,
   agent_loop_terminal_returns_immediately oneTerminalTransport [] 19 1 []
     [goodApplyCall] goodApplyCall
     { explanation := some "ok", operations := some [] } "ok" []
     rfl rfl rfl rfl (by decide) rfl⟩
